import Mathlib

/-!
Verification of the workflow-copilot command interpreter
(`src/webapp/src/app/page.tsx`, function `computeAssistant` and the pure
formatter helpers around it).

The interpreter is embedded shallowly:

* JS objects become Lean structures; arrays become `List`; optional fields
  become `Option`.
* The workflow catalog module `@/lib/workflows` (the constants `WORKFLOWS`,
  `getWorkflowByQuery`, `formatWorkflowHeadline`, `describeWorkflowSteps`)
  is not part of the sources under verification; following the design
  document it is external read-only data, so it is passed in as a context
  record `Ctx`.
* The two ambient effects of `computeAssistant` — `new Date().toISOString()`
  and `createId()` (crypto.randomUUID / Math.random) — are made explicit
  inputs: `now : String` is the single clock reading of the call and
  `ids : Nat -> String` supplies the fresh message id for the n-th reply
  created during the call.  `new Date(s).toLocaleString()` is the opaque
  locale renderer `Ctx.localeString`.
* JS string tests are embedded on character lists: `includes` is substring
  containment, `===` is equality, `trim`/`toLowerCase` act character-wise
  (exact for the ASCII texts the program manipulates).
* JS numbers are embedded as `Nat`; `Math.round((c / t) * 100)` is embedded
  as exact half-up rounding of the rational `100 * c / t`, with the
  `t = 0` behaviour of JS division (`NaN` / `Infinity`) kept explicit.
-/

set_option maxRecDepth 100000

/-- One step of a workflow (`StepDefinition` of the data model in page.tsx). -/
structure Step where
  id : String
  title : String
  description : String
  owner : String
  duration : Option String
  outputs : Option (List String)
  deriving DecidableEq, Repr

/-- A workflow definition from the catalog. -/
structure Workflow where
  id : String
  name : String
  summary : String
  metrics : List String
  tags : List String
  checklist : List String
  resources : List String
  steps : List Step
  deriving DecidableEq, Repr

/-- The single in-progress execution (`ActiveRun` in page.tsx). -/
structure ActiveRun where
  workflow : Workflow
  currentStepIndex : Nat
  completedStepIds : List String
  startedAt : String
  notes : List String
  deriving DecidableEq, Repr

/-- Status of a closed or snapshotted run. -/
inductive RunStatus where
  | completed
  | cancelled
  | inProgress
  deriving DecidableEq, Repr

/-- Immutable snapshot taken when a run closes (`RunRecord` in page.tsx). -/
structure RunRecord where
  workflow : Workflow
  startedAt : String
  completedAt : String
  completedStepIds : List String
  notes : List String
  status : RunStatus
  deriving DecidableEq, Repr

/-- Message role. -/
inductive Role where
  | assistant
  | user
  deriving DecidableEq, Repr

/-- A chat message (`Message` in page.tsx). -/
structure Message where
  id : String
  role : Role
  content : String
  deriving DecidableEq, Repr

/-- Result of one interpreter call (`AssistantResult` in page.tsx). -/
structure AssistantResult where
  replies : List Message
  nextRun : Option ActiveRun
  completedRun : Option RunRecord
  deriving DecidableEq, Repr

/-- Modelled from the spec: the workflow catalog module `@/lib/workflows`
(constants `WORKFLOWS` and the functions `getWorkflowByQuery`,
`formatWorkflowHeadline`, `describeWorkflowSteps`) is not among the sources
under `src/`; the design document describes it as external, immutable,
read-only data with a fuzzy lookup.  It is therefore a parameter of the
embedding, together with the runtime locale renderer used by
`new Date(s).toLocaleString()`. -/
structure Ctx where
  WORKFLOWS : List Workflow
  getWorkflowByQuery : String → Option Workflow
  formatWorkflowHeadline : Workflow → String
  describeWorkflowSteps : Workflow → String
  localeString : String → String

/-- ASCII whitespace, covering the JS `\s` / `trim` classes for the
character repertoire the program manipulates. -/
def jsIsWs (c : Char) : Bool :=
  c == ' ' || c == '\t' || c == '\n' || c == '\r'

/-- Embedding of `String.prototype.trim`. -/
def jsTrim (s : String) : String :=
  String.mk (((s.toList.dropWhile jsIsWs).reverse.dropWhile jsIsWs).reverse)

/-- Embedding of `String.prototype.toLowerCase` (character-wise, exact on
ASCII). -/
def jsToLower (s : String) : String :=
  String.mk (s.toList.map Char.toLower)

/-- Substring containment on character lists. -/
def infixCheck (pat : List Char) : List Char → Bool
  | [] => pat.isEmpty
  | c :: rest => pat.isPrefixOf (c :: rest) || infixCheck pat rest

/-- Embedding of `String.prototype.includes`. -/
def jsIncludes (s pat : String) : Bool :=
  infixCheck pat.toList s.toList

/-- Embedding of `String.prototype.startsWith`. -/
def jsStartsWith (s pat : String) : Bool :=
  pat.toList.isPrefixOf s.toList

/-- Category 2 predicate (page.tsx lines 191-196). -/
def greetCond (lower : String) : Bool :=
  lower == "hi" || lower == "hello" || lower == "hey" || jsIncludes lower "help"

/-- Category 3 predicate (page.tsx lines 203-208). -/
def listCond (lower : String) : Bool :=
  jsIncludes lower "list workflows" || lower == "list" ||
    jsIncludes lower "show workflows" || jsIncludes lower "catalog"

/-- Category 4 predicate (page.tsx line 213). -/
def detailsCond (lower : String) : Bool :=
  jsIncludes lower "details" || jsIncludes lower "show" ||
    jsIncludes lower "tell me about"

/-- Category 5 predicate (page.tsx lines 233-238). -/
def startCond (lower : String) : Bool :=
  jsIncludes lower "start " || jsStartsWith lower "run " ||
    jsStartsWith lower "kick" || jsIncludes lower "launch"

/-- Category 6 predicate (page.tsx lines 274-279). -/
def advanceCond (lower : String) : Bool :=
  jsIncludes lower "complete" || jsStartsWith lower "next" ||
    jsIncludes lower "advance" || jsIncludes lower "done"

/-- Category 7 predicate (page.tsx lines 333-338). -/
def statusCond (lower : String) : Bool :=
  jsIncludes lower "status" || jsIncludes lower "progress" ||
    jsIncludes lower "where are we" || jsIncludes lower "how far"

/-- Category 8 predicate (page.tsx line 348). -/
def noteCond (lower : String) : Bool :=
  jsIncludes lower "note"

/-- Category 9 predicate (page.tsx lines 371-375). -/
def cancelCond (lower : String) : Bool :=
  jsIncludes lower "cancel" || jsIncludes lower "stop run" ||
    jsIncludes lower "abort"

/-- Category 10 predicate (page.tsx line 394). -/
def exportCond (lower : String) : Bool :=
  jsIncludes lower "export" || jsIncludes lower "summary"

/-- Category 11 predicate (page.tsx line 416). -/
def goBackCond (lower : String) : Bool :=
  jsIncludes lower "previous step" || jsIncludes lower "go back"

/-- Half-up rounding of the rational `a / t`, as computed by JS
`Math.round` on the exact value (used with `a = 100 * completed`). -/
def natRoundDiv (a t : Nat) : Nat :=
  (2 * a + t) / (2 * t)

/-- Embedding of the percentage text `Math.round((completed / total) * 100)`
interpolated by the formatters.  When `total = 0`, JS division yields `NaN`
(for `0 / 0`) or `Infinity`, which `Math.round` passes through and string
interpolation renders literally; there is no zero-total guard inside the
formatters themselves. -/
def jsPercent (completed total : Nat) : String :=
  if total = 0 then (if completed = 0 then "NaN" else "Infinity")
  else toString (natRoundDiv (100 * completed) total)

/-- Placeholder step returned by out-of-range JS array indexing; every
theorem that touches step access carries the index-in-range hypothesis, so
this value never matters. -/
def defaultStep : Step :=
  { id := "", title := "", description := "", owner := "",
    duration := none, outputs := none }

/-- Embedding of `formatActiveStep` (page.tsx lines 67-82): renders the
current step, omitting empty optional lines via `.filter(Boolean)`. -/
def formatActiveStep (run : ActiveRun) : String :=
  let step := run.workflow.steps.getD run.currentStepIndex defaultStep
  let parts : List String :=
    [ "Step " ++ toString (run.currentStepIndex + 1) ++ "/" ++
        toString run.workflow.steps.length ++ ": " ++ step.title,
      step.description,
      "Owner: " ++ step.owner,
      match step.duration with
      | some d => if d = "" then "" else "Timing: " ++ d
      | none => "",
      match step.outputs with
      | some os => if os.isEmpty then "" else
          "Expected outputs: " ++ String.intercalate ", " os
      | none => "" ]
  String.intercalate "\n" (parts.filter (fun l => l != ""))

/-- Last `n` elements of a list, as JS `slice(-n)`. -/
def lastSlice (n : Nat) (l : List String) : List String :=
  l.drop (l.length - n)

/-- Embedding of `buildStatusMessage` (page.tsx lines 84-99). -/
def buildStatusMessage (run : ActiveRun) : String :=
  let total := run.workflow.steps.length
  let completed := run.completedStepIds.length
  let progress := jsPercent completed total
  let nextStep := run.workflow.steps.getD (min run.currentStepIndex (total - 1)) defaultStep
  String.intercalate "\n"
    [ run.workflow.name ++ " is " ++ progress ++ "% complete (" ++
        toString completed ++ "/" ++ toString total ++ " steps).",
      "Current focus: " ++ nextStep.title ++ " (" ++ nextStep.owner ++ ")",
      nextStep.description,
      if run.notes.isEmpty then "Notes captured: none yet."
      else "Notes captured: " ++ String.intercalate " • " (lastSlice 3 run.notes) ]

/-- Embedding of `formatRunSummary` (page.tsx lines 101-136). -/
def formatRunSummary (ctx : Ctx) (record : RunRecord) : String :=
  let total := record.workflow.steps.length
  let completedCount := record.completedStepIds.length
  let completedTitles :=
    String.intercalate " → "
      (record.completedStepIds.filterMap
        (fun stepId =>
          (record.workflow.steps.find? (fun step => step.id = stepId)).map
            (fun step => step.title)))
  let header :=
    match record.status with
    | RunStatus.completed =>
        "Workflow \"" ++ record.workflow.name ++ "\" finished successfully."
    | RunStatus.cancelled =>
        "Workflow \"" ++ record.workflow.name ++ "\" was cancelled."
    | RunStatus.inProgress =>
        "Workflow \"" ++ record.workflow.name ++ "\" is still in progress."
  let parts : List String :=
    [ header,
      "Started: " ++ ctx.localeString record.startedAt,
      (if record.status = RunStatus.inProgress then "Snapshot" else "Closed") ++
        ": " ++ ctx.localeString record.completedAt,
      "Progress: " ++ toString completedCount ++ "/" ++ toString total ++
        " steps (" ++ jsPercent completedCount total ++ "%)",
      "Steps completed: " ++
        (if completedTitles = "" then "none" else completedTitles),
      if record.notes.isEmpty then "No notes were captured during this run."
      else "Captured notes:\n• " ++ String.intercalate "\n• " record.notes ]
  String.intercalate "\n" (parts.filter (fun l => l != ""))

/-- Embedding of `formatWorkflowList` (page.tsx lines 54-58). -/
def formatWorkflowList (ctx : Ctx) : String :=
  String.intercalate "\n\n"
    (ctx.WORKFLOWS.map
      (fun wf => "• " ++ wf.name ++ " — " ++ wf.summary ++
        "\n  Success metrics: " ++ String.intercalate "; " wf.metrics))

/-- Embedding of `findWorkflowFromText` (page.tsx lines 60-65). -/
def findWorkflowFromText (ctx : Ctx) (text : String) : Option Workflow :=
  match ctx.WORKFLOWS.find?
      (fun wf => jsIncludes (jsToLower text) (jsToLower wf.name)) with
  | some wf => some wf
  | none => ctx.getWorkflowByQuery text

/-- Idle acknowledgment reply (page.tsx line 187). -/
def idleMsg : String :=
  "I\x27ll wait here—type a workflow command whenever you\x27re ready."

/-- Capability summary reply (page.tsx lines 197-199). -/
def capabilityMsg : String :=
  "I\x27m your workflow copilot. Ask me to list workflows, start a run, complete steps, capture notes, or export a summary. You can say things like \"Start Incident Response\" or \"Complete the current step\"."

/-- Reply of the `ensureActive` guard (page.tsx lines 176-184). -/
def ensureActiveMsg : String :=
  "There isn\x27t an active workflow run yet. Start one with commands like \"Start Employee Onboarding\" or ask for \"List workflows\" to explore."

/-- Catalog listing reply (page.tsx line 209). -/
def listMsg (ctx : Ctx) : String :=
  "Here are the available playbooks:\n\n" ++ formatWorkflowList ctx

/-- Details reply for a matched workflow (page.tsx lines 216-222). -/
def detailsMsg (ctx : Ctx) (target : Workflow) : String :=
  ctx.formatWorkflowHeadline target ++ "\n\nSummary: " ++ target.summary ++
    "\n\nSteps:\n" ++ ctx.describeWorkflowSteps target ++
    "\n\nReadiness checklist:\n• " ++ String.intercalate "\n• " target.checklist ++
    "\n\nResources:\n• " ++ String.intercalate "\n• " target.resources

/-- Not-found hint of the details branch (page.tsx lines 224-226). -/
def notFoundMsg : String :=
  "I couldn\x27t match that workflow. Try \"Show details for Incident Response\" or ask me to \"List workflows\"."

/-- Failure reply of the start branch (page.tsx lines 241-243). -/
def startNotFoundMsg : String :=
  "I couldn\x27t find that workflow. Ask for \"List workflows\" to see the available playbooks."

/-- Note appended to a run that is superseded by a new start (page.tsx line 253). -/
def autoClosedNote : String :=
  "Automatically closed when a new workflow started."

/-- Record produced when a new start supersedes the active run
(page.tsx lines 247-256). -/
def supersededRecord (now : String) (r : ActiveRun) : RunRecord :=
  { workflow := r.workflow, startedAt := r.startedAt, completedAt := now,
    completedStepIds := r.completedStepIds,
    notes := r.notes ++ [autoClosedNote], status := RunStatus.cancelled }

/-- Fresh run created by the start branch (page.tsx lines 258-264): step 0,
empty completed list, empty notes, started at the clock reading of this call. -/
def freshRun (target : Workflow) (now : String) : ActiveRun :=
  { workflow := target, currentStepIndex := 0, completedStepIds := [],
    startedAt := now, notes := [] }

/-- Start reply (page.tsx lines 266-270). -/
def startMsg (target : Workflow) (fresh : ActiveRun) : String :=
  "Starting \"" ++ target.name ++ "\". Here\x27s the first checkpoint:\n\n" ++
    formatActiveStep fresh ++
    "\n\nNeed context on later steps? Ask for \"Show status\" at any time."

/-- Update of the advance branch appending the current step id
(page.tsx lines 297-300). -/
def markCompleted (r : ActiveRun) : ActiveRun :=
  { r with completedStepIds :=
      r.completedStepIds ++ [(r.workflow.steps.getD r.currentStepIndex defaultStep).id] }

/-- Update of the advance branch moving to the next step
(page.tsx lines 320-323). -/
def advanceRun (r : ActiveRun) : ActiveRun :=
  { r with currentStepIndex := r.currentStepIndex + 1 }

/-- Idempotent already-complete reply (page.tsx lines 291-293). -/
def alreadyMsg (step : Step) : String :=
  "Step \"" ++ step.title ++ "\" is already marked complete. Ask for \"Show status\" to review what\x27s next."

/-- Record produced when the last step completes (page.tsx lines 303-310). -/
def completedRecord (now : String) (r : ActiveRun) : RunRecord :=
  { workflow := r.workflow, startedAt := r.startedAt, completedAt := now,
    completedStepIds := r.completedStepIds, notes := r.notes,
    status := RunStatus.completed }

/-- Completion reply (page.tsx lines 311-315). -/
def completeAllMsg (ctx : Ctx) (r : ActiveRun) (rec1 : RunRecord) : String :=
  "Nice work! \"" ++ r.workflow.name ++ "\" is fully complete.\n\n" ++
    formatRunSummary ctx rec1

/-- Advance reply (page.tsx lines 325-329). -/
def advMsg (step : Step) (r2 : ActiveRun) : String :=
  "Marked \"" ++ step.title ++ "\" complete. Up next:\n\n" ++ formatActiveStep r2

/-- Note-captured confirmation (page.tsx lines 359-361). -/
def capturedMsg (r : ActiveRun) (note : String) : String :=
  "Captured note on \"" ++ r.workflow.name ++ "\": " ++ note ++
    "\nAsk for \"Show status\" to view the latest context."

/-- Malformed note prompt (page.tsx lines 363-365). -/
def notePromptMsg : String :=
  "To add a note, try \"Add note: waiting on security review\"."

/-- Note appended on explicit cancellation (page.tsx line 385). -/
def cancelNote : String :=
  "Run cancelled before completion."

/-- Record produced by the cancel branch (page.tsx lines 380-387). -/
def cancelRecord (now : String) (r : ActiveRun) : RunRecord :=
  { workflow := r.workflow, startedAt := r.startedAt, completedAt := now,
    completedStepIds := r.completedStepIds,
    notes := r.notes ++ [cancelNote], status := RunStatus.cancelled }

/-- Cancel reply (page.tsx line 388). -/
def cancelMsg (ctx : Ctx) (r : ActiveRun) (rec1 : RunRecord) : String :=
  "Stopped \"" ++ r.workflow.name ++ "\".\n\n" ++ formatRunSummary ctx rec1

/-- Read-only snapshot built by the export branch (page.tsx lines 399-410). -/
def exportRecord (now : String) (r : ActiveRun) : RunRecord :=
  { workflow := r.workflow, startedAt := r.startedAt, completedAt := now,
    completedStepIds := r.completedStepIds, notes := r.notes,
    status :=
      if r.completedStepIds.length = r.workflow.steps.length
      then RunStatus.completed else RunStatus.inProgress }

/-- Cannot-go-back reply (page.tsx line 422). -/
def goBackFirstMsg : String :=
  "You\x27re already at the first step of this workflow."

/-- Go-back reply (page.tsx line 428). -/
def goBackMsg (r2 : ActiveRun) : String :=
  "Revisiting:\n\n" ++ formatActiveStep r2

/-- Fallback reply (page.tsx lines 434-436). -/
def fallbackMsg (trimmed : String) : String :=
  "I\x27m not sure how to help with \"" ++ trimmed ++ "\". Try commands like \"List workflows\", \"Start Incident Response\", \"Complete current step\", or \"Add note: waiting on finance\"."

/-- Case-insensitive literal match at the head of a character list
(`pat` given in lowercase). -/
def headMatchCI (pat l : List Char) : Bool :=
  pat.isPrefixOf (l.map Char.toLower)

/-- Leftmost position where the first note regex
`/note[:\-]?\s*(.+)$/i` (page.tsx line 354) can match: a case-insensitive
`note` with at least one character after it.  Returns the characters
following `note`. -/
def noteScan : List Char → Option (List Char)
  | [] => none
  | c :: rest =>
    if headMatchCI ['n', 'o', 't', 'e'] (c :: rest) && decide (4 ≤ rest.length)
    then some (rest.drop 3)
    else noteScan rest

/-- Capture of the first note regex after the `note` literal: the optional
`[:\-]` is consumed when something follows it (when nothing follows, the
regex backtracks and the punctuation itself is captured); the `\s*` padding
is immaterial because the caller trims the capture. -/
def noteCapture (rest : List Char) : List Char :=
  match rest with
  | [] => []
  | c :: t => if (c == ':' || c == '-') && !t.isEmpty then t else c :: t

/-- Attempted match of the second note regex `/add\s+note\s+(.*)$/i`
(page.tsx line 355) at the head of the list. -/
def tryAddNote (l : List Char) : Option (List Char) :=
  if headMatchCI ['a', 'd', 'd'] l then
    let r1 := l.drop 3
    let w1 := r1.takeWhile jsIsWs
    if w1.isEmpty then none
    else
      let r2 := r1.drop w1.length
      if headMatchCI ['n', 'o', 't', 'e'] r2 then
        let r3 := r2.drop 4
        let w2 := r3.takeWhile jsIsWs
        if w2.isEmpty then none else some (r3.drop w2.length)
      else none
  else none

/-- Leftmost match of the second note regex. -/
def addNoteScan : List Char → Option (List Char)
  | [] => none
  | c :: rest =>
    match tryAddNote (c :: rest) with
    | some cap => some cap
    | none => addNoteScan rest

/-- Embedding of the note extraction of the note branch (page.tsx lines
353-356): the first regex is preferred, the second is only consulted when
the first fails, and the capture is trimmed. -/
def noteCaptured (trimmed : String) : Option String :=
  let cap : Option (List Char) :=
    match noteScan trimmed.toList with
    | some rest => some (noteCapture rest)
    | none => addNoteScan trimmed.toList
  match cap with
  | some cs =>
    let note := jsTrim (String.mk cs)
    if note = "" then none else some note
  | none => none

/-- Intermediate result of one interpreter call before message ids are
attached: reply contents in order, next run, optional closed record. -/
structure ContentsResult where
  contents : List String
  nextRun : Option ActiveRun
  completedRun : Option RunRecord
  deriving DecidableEq, Repr

/-- Embedding of categories 5-12 of `computeAssistant` (page.tsx lines
233-437): the branches evaluated after the details branch has declined to
return.  Factored out because the details branch only returns when a
workflow was matched; otherwise control falls through to these branches. -/
def afterDetails (ctx : Ctx) (now trimmed lower : String)
    (run : Option ActiveRun) : ContentsResult :=
  if startCond lower then
    match findWorkflowFromText ctx trimmed with
    | none => ⟨[startNotFoundMsg], run, none⟩
    | some target =>
      let closed : Option RunRecord :=
        match run with
        | some r =>
          if r.workflow.id ≠ target.id then some (supersededRecord now r)
          else none
        | none => none
      let fresh : ActiveRun := freshRun target now
      ⟨[startMsg target fresh], some fresh, closed⟩
  else if advanceCond lower then
    match run with
    | none => ⟨[ensureActiveMsg], none, none⟩
    | some r =>
      let totalSteps := r.workflow.steps.length
      let currentStep := r.workflow.steps.getD r.currentStepIndex defaultStep
      if currentStep.id ∈ r.completedStepIds then
        ⟨[alreadyMsg currentStep], some r, none⟩
      else
        let r1 : ActiveRun := markCompleted r
        if totalSteps - 1 ≤ r1.currentStepIndex then
          let rec1 := completedRecord now r1
          ⟨[completeAllMsg ctx r1 rec1], none, some rec1⟩
        else
          let r2 : ActiveRun := advanceRun r1
          ⟨[advMsg currentStep r2], some r2, none⟩
  else if statusCond lower then
    match run with
    | none => ⟨[ensureActiveMsg], none, none⟩
    | some r => ⟨[buildStatusMessage r], some r, none⟩
  else if noteCond lower then
    match run with
    | none => ⟨[ensureActiveMsg], none, none⟩
    | some r =>
      match noteCaptured trimmed with
      | some note =>
        ⟨[capturedMsg r note], some { r with notes := r.notes ++ [note] }, none⟩
      | none => ⟨[notePromptMsg], some r, none⟩
  else if cancelCond lower then
    match run with
    | none => ⟨[ensureActiveMsg], none, none⟩
    | some r =>
      let rec1 := cancelRecord now r
      ⟨[cancelMsg ctx r rec1], none, some rec1⟩
  else if exportCond lower then
    match run with
    | none => ⟨[ensureActiveMsg], none, none⟩
    | some r => ⟨[formatRunSummary ctx (exportRecord now r)], some r, none⟩
  else if goBackCond lower then
    match run with
    | none => ⟨[ensureActiveMsg], none, none⟩
    | some r =>
      if r.currentStepIndex = 0 then ⟨[goBackFirstMsg], some r, none⟩
      else
        let r2 : ActiveRun := { r with currentStepIndex := r.currentStepIndex - 1 }
        ⟨[goBackMsg r2], some r2, none⟩
  else ⟨[fallbackMsg trimmed], run, none⟩

/-- Embedding of `computeAssistant` (page.tsx lines 157-438) up to message
id attachment: trims and lowercases the input, then walks the category
chain in source order.  The details branch only returns early when a
workflow matched; otherwise its optional hint is prepended and control
falls through to `afterDetails`, exactly as in the source. -/
def assistantContents (ctx : Ctx) (now input : String)
    (run : Option ActiveRun) : ContentsResult :=
  let trimmed := jsTrim input
  let lower := jsToLower trimmed
  if trimmed = "" then ⟨[idleMsg], run, none⟩
  else if greetCond lower then ⟨[capabilityMsg], run, none⟩
  else if listCond lower then ⟨[listMsg ctx], run, none⟩
  else if detailsCond lower then
    match findWorkflowFromText ctx trimmed with
    | some target => ⟨[detailsMsg ctx target], run, none⟩
    | none =>
      let pre := if jsIncludes lower "workflow" then [notFoundMsg] else []
      let r := afterDetails ctx now trimmed lower run
      ⟨pre ++ r.contents, r.nextRun, r.completedRun⟩
  else afterDetails ctx now trimmed lower run

/-- Embedding of `computeAssistant` (page.tsx lines 157-438): the reply
contents are wrapped into `Message` values, the n-th reply of the call
receiving the n-th fresh id, mirroring the sequence of `createId()` draws. -/
def computeAssistant (ctx : Ctx) (now : String) (ids : Nat → String)
    (input : String) (run : Option ActiveRun) : AssistantResult :=
  let r := assistantContents ctx now input run
  ⟨r.contents.enum.map (fun p => ⟨ids p.1, Role.assistant, p.2⟩),
    r.nextRun, r.completedRun⟩

/-- Concrete step fixture. -/
def stepA1 : Step :=
  { id := "a1", title := "Collect logs", description := "Gather the logs.",
    owner := "Ops", duration := none, outputs := none }

/-- Concrete step fixture. -/
def stepA2 : Step :=
  { id := "a2", title := "File report", description := "Write the report.",
    owner := "Ops", duration := some "1h", outputs := some ["report"] }

/-- Concrete step fixture. -/
def stepB1 : Step :=
  { id := "b1", title := "Intro meeting", description := "Meet the team.",
    owner := "HR", duration := none, outputs := none }

/-- Concrete two-step workflow fixture. -/
def wfAlpha : Workflow :=
  { id := "alpha", name := "Alpha Response", summary := "Handles alpha.",
    metrics := ["m1"], tags := ["t1"], checklist := ["c1"],
    resources := ["r1"], steps := [stepA1, stepA2] }

/-- Concrete one-step workflow fixture. -/
def wfBeta : Workflow :=
  { id := "beta", name := "Beta Onboarding", summary := "Handles beta.",
    metrics := ["m2"], tags := ["t2"], checklist := ["c2"],
    resources := ["r2"], steps := [stepB1] }

/-- Concrete workflow with no steps, exercising the defensive zero-total
corner of the formatters. -/
def wfEmpty : Workflow :=
  { id := "empty", name := "Empty Flow", summary := "Has no steps.",
    metrics := [], tags := [], checklist := [], resources := [], steps := [] }

/-- Concrete catalog context used by the witnesses: two workflows and a
query lookup that never matches, so that name containment alone decides
workflow resolution. -/
def ctx0 : Ctx :=
  { WORKFLOWS := [wfAlpha, wfBeta],
    getWorkflowByQuery := fun _ => none,
    formatWorkflowHeadline := fun wf => wf.name,
    describeWorkflowSteps := fun wf => wf.summary,
    localeString := fun s => s }

/-- Concrete fresh run on `wfAlpha`. -/
def run0 : ActiveRun :=
  { workflow := wfAlpha, currentStepIndex := 0, completedStepIds := [],
    startedAt := "T0", notes := [] }

/-- Concrete mid-progress run on `wfAlpha` (first step done). -/
def run1 : ActiveRun :=
  { workflow := wfAlpha, currentStepIndex := 1, completedStepIds := ["a1"],
    startedAt := "T0", notes := [] }

/-- Concrete run on `wfAlpha` whose current (first) step is already marked
complete. -/
def run2 : ActiveRun :=
  { workflow := wfAlpha, currentStepIndex := 0, completedStepIds := ["a1"],
    startedAt := "T0", notes := [] }

/-- Concrete id supply for witnesses. -/
def ids0 : Nat → String := fun n => "id-" ++ toString n

/-- Concrete record over the step-less workflow, as built by the export
branch for a run of `wfEmpty`. -/
def recEmpty : RunRecord :=
  { workflow := wfEmpty, startedAt := "T0", completedAt := "T1",
    completedStepIds := [], notes := [], status := RunStatus.inProgress }

/-- State of a fresh run of `w` started at `t0` after completing its first
`k` steps in order with no other state-changing commands in between. -/
def runAfter (w : Workflow) (t0 : String) (k : Nat) : ActiveRun :=
  { workflow := w, currentStepIndex := k,
    completedStepIds := (w.steps.take k).map (fun s => s.id),
    startedAt := t0, notes := [] }

theorem enumFrom_map_content (ids : Nat → String) :
    ∀ (n : Nat) (cs : List String),
      ((List.enumFrom n cs).map
          (fun p => (⟨ids p.1, Role.assistant, p.2⟩ : Message))).map Message.content = cs
  | _, [] => rfl
  | n, c :: cs => by
      simpa [List.enumFrom] using enumFrom_map_content ids (n + 1) cs

theorem enumFrom_map_role (ids : Nat → String) :
    ∀ (n : Nat) (cs : List String),
      ((List.enumFrom n cs).map
          (fun p => (⟨ids p.1, Role.assistant, p.2⟩ : Message))).map Message.role =
        cs.map (fun _ => Role.assistant)
  | _, [] => rfl
  | n, c :: cs => by
      simpa [List.enumFrom] using enumFrom_map_role ids (n + 1) cs

theorem computeAssistant_content (ctx : Ctx) (now : String) (ids : Nat → String)
    (input : String) (run : Option ActiveRun) :
    (computeAssistant ctx now ids input run).replies.map Message.content =
      (assistantContents ctx now input run).contents :=
  enumFrom_map_content ids 0 (assistantContents ctx now input run).contents

theorem computeAssistant_nextRun (ctx : Ctx) (now : String) (ids : Nat → String)
    (input : String) (run : Option ActiveRun) :
    (computeAssistant ctx now ids input run).nextRun =
      (assistantContents ctx now input run).nextRun := rfl

theorem computeAssistant_completedRun (ctx : Ctx) (now : String) (ids : Nat → String)
    (input : String) (run : Option ActiveRun) :
    (computeAssistant ctx now ids input run).completedRun =
      (assistantContents ctx now input run).completedRun := rfl

theorem ne_empty_of_cond {text : String} (f : String → Bool) (hf : f "" = false)
    (h : f (jsToLower (jsTrim text)) = true) : jsTrim text ≠ "" := by
  intro he
  rw [he] at h
  have h0 : jsToLower "" = "" := by decide
  rw [h0, hf] at h
  exact Bool.noConfusion h

theorem contents_eq_afterDetails (ctx : Ctx) (now text : String)
    (run : Option ActiveRun)
    (htr : jsTrim text ≠ "")
    (hg : greetCond (jsToLower (jsTrim text)) = false)
    (hl : listCond (jsToLower (jsTrim text)) = false)
    (hd : detailsCond (jsToLower (jsTrim text)) = false) :
    assistantContents ctx now text run =
      afterDetails ctx now (jsTrim text) (jsToLower (jsTrim text)) run := by
  unfold assistantContents
  simp [htr, hg, hl, hd]

/-- Splits a string into maximal whitespace-free tokens; used only to state
the spec-side "whole token" reading of the greeting rule. -/
def splitWsAux : List Char → List Char → List (List Char)
  | [], acc => if acc.isEmpty then [] else [acc.reverse]
  | c :: rest, acc =>
    if jsIsWs c then
      (if acc.isEmpty then splitWsAux rest [] else acc.reverse :: splitWsAux rest [])
    else splitWsAux rest (c :: acc)

/-- Modelled from the spec wording of the greeting rule: `tok` occurs in
`s` as a whole whitespace-delimited token. -/
def specWholeToken (tok s : String) : Bool :=
  (splitWsAux s.toList []).contains tok.toList

/-- C5 counterexample: the input "hello there" contains "hello" as a whole
token, yet the interpreter does not reply with the capability summary — it
falls through to the generic fallback.  The code compares the whole
lower-cased text with "hi"/"hello"/"hey" by equality, not by token
containment. -/
theorem greeting_whole_token_counterexample :
    specWholeToken "hello" (jsToLower (jsTrim "hello there")) = true ∧
    (computeAssistant ctx0 "T1" ids0 "hello there" none).replies.map Message.content =
      [fallbackMsg "hello there"] ∧
    fallbackMsg "hello there" ≠ capabilityMsg := by
  refine ⟨by decide, ?_, by decide⟩
  rw [computeAssistant_content]
  decide

/-- C5 (amended): when the trimmed lower-cased text is exactly "hi",
"hello" or "hey", or contains "help" anywhere, the interpreter replies
with the capability summary and leaves the run state unchanged. -/
theorem greeting_exact_replies_capability (ctx : Ctx) (now : String)
    (ids : Nat → String) (text : String) (run : Option ActiveRun)
    (h : jsToLower (jsTrim text) = "hi" ∨ jsToLower (jsTrim text) = "hello" ∨
      jsToLower (jsTrim text) = "hey" ∨
      jsIncludes (jsToLower (jsTrim text)) "help" = true) :
    (computeAssistant ctx now ids text run).replies.map Message.content =
      [capabilityMsg] ∧
    (computeAssistant ctx now ids text run).nextRun = run ∧
    (computeAssistant ctx now ids text run).completedRun = none := by
  have hg : greetCond (jsToLower (jsTrim text)) = true := by
    unfold greetCond
    rcases h with h | h | h | h <;> simp [h]
  have htr : jsTrim text ≠ "" := ne_empty_of_cond greetCond (by decide) hg
  have key : assistantContents ctx now text run =
      ⟨[capabilityMsg], run, none⟩ := by
    unfold assistantContents
    simp [htr, hg]
  refine ⟨?_, ?_, ?_⟩
  · rw [computeAssistant_content, key]
  · rw [computeAssistant_nextRun, key]
  · rw [computeAssistant_completedRun, key]

/-- C5 witness: a concrete greeting ("  HELLO  ", which trims and
lower-cases to "hello") gets the capability summary and no state change. -/
theorem greeting_exact_replies_capability_witness :
    (computeAssistant ctx0 "T1" ids0 "  HELLO  " none).replies.map Message.content =
      [capabilityMsg] ∧
    (computeAssistant ctx0 "T1" ids0 "  HELLO  " none).nextRun = none ∧
    (computeAssistant ctx0 "T1" ids0 "  HELLO  " none).completedRun = none :=
  greeting_exact_replies_capability ctx0 "T1" ids0 "  HELLO  " none
    (Or.inr (Or.inl (by decide)))

/-- C6: an export/summary command on an active run is read-only: the run
comes back unchanged, no closed record is produced, the single reply is the
rendered snapshot, and the status of the snapshot is "completed" exactly when
every step has been completed, "in-progress" otherwise. -/
theorem export_is_read_only (ctx : Ctx) (now : String) (ids : Nat → String)
    (text : String) (r : ActiveRun)
    (hg : greetCond (jsToLower (jsTrim text)) = false)
    (hl : listCond (jsToLower (jsTrim text)) = false)
    (hd : detailsCond (jsToLower (jsTrim text)) = false)
    (hs : startCond (jsToLower (jsTrim text)) = false)
    (ha : advanceCond (jsToLower (jsTrim text)) = false)
    (hst : statusCond (jsToLower (jsTrim text)) = false)
    (hn : noteCond (jsToLower (jsTrim text)) = false)
    (hc : cancelCond (jsToLower (jsTrim text)) = false)
    (he : exportCond (jsToLower (jsTrim text)) = true) :
    (computeAssistant ctx now ids text (some r)).nextRun = some r ∧
    (computeAssistant ctx now ids text (some r)).completedRun = none ∧
    (computeAssistant ctx now ids text (some r)).replies.map Message.content =
      [formatRunSummary ctx (exportRecord now r)] ∧
    ((exportRecord now r).status = RunStatus.completed ↔
      r.completedStepIds.length = r.workflow.steps.length) := by
  have htr : jsTrim text ≠ "" := ne_empty_of_cond exportCond (by decide) he
  have key : assistantContents ctx now text (some r) =
      ⟨[formatRunSummary ctx (exportRecord now r)], some r, none⟩ := by
    rw [contents_eq_afterDetails ctx now text (some r) htr hg hl hd]
    unfold afterDetails
    simp [hs, ha, hst, hn, hc, he]
  refine ⟨?_, ?_, ?_, ?_⟩
  · rw [computeAssistant_nextRun, key]
  · rw [computeAssistant_completedRun, key]
  · rw [computeAssistant_content, key]
  · unfold exportRecord
    constructor
    · intro hstat
      by_contra hne
      simp only [if_neg hne] at hstat
      exact RunStatus.noConfusion hstat
    · intro heq
      simp only [if_pos heq]

/-- C6 witness: exporting a half-done two-step run returns it unchanged,
produces no closed record, and the snapshot status is "in-progress". -/
theorem export_is_read_only_witness :
    (computeAssistant ctx0 "T1" ids0 "export summary" (some run1)).nextRun = some run1 ∧
    (computeAssistant ctx0 "T1" ids0 "export summary" (some run1)).completedRun = none ∧
    (computeAssistant ctx0 "T1" ids0 "export summary" (some run1)).replies.map Message.content =
      [formatRunSummary ctx0 (exportRecord "T1" run1)] ∧
    ((exportRecord "T1" run1).status = RunStatus.completed ↔
      run1.completedStepIds.length = run1.workflow.steps.length) :=
  export_is_read_only ctx0 "T1" ids0 "export summary" run1
    (by decide) (by decide) (by decide) (by decide) (by decide)
    (by decide) (by decide) (by decide) (by decide)

/-- C3: when the current step is already recorded as completed, an
advance/complete command is a no-op: the run comes back unchanged (no
duplicate id appended, same index, same notes), no record is produced, and
the single reply is the informational already-complete message. -/
theorem already_complete_noop (ctx : Ctx) (now : String) (ids : Nat → String)
    (text : String) (r : ActiveRun)
    (hg : greetCond (jsToLower (jsTrim text)) = false)
    (hl : listCond (jsToLower (jsTrim text)) = false)
    (hd : detailsCond (jsToLower (jsTrim text)) = false)
    (hs : startCond (jsToLower (jsTrim text)) = false)
    (ha : advanceCond (jsToLower (jsTrim text)) = true)
    (hidx : r.currentStepIndex < r.workflow.steps.length)
    (hmem : (r.workflow.steps.getD r.currentStepIndex defaultStep).id ∈
      r.completedStepIds) :
    (computeAssistant ctx now ids text (some r)).nextRun = some r ∧
    (computeAssistant ctx now ids text (some r)).completedRun = none ∧
    (computeAssistant ctx now ids text (some r)).replies.map Message.content =
      [alreadyMsg (r.workflow.steps.getD r.currentStepIndex defaultStep)] := by
  have htr : jsTrim text ≠ "" := ne_empty_of_cond advanceCond (by decide) ha
  have key : assistantContents ctx now text (some r) =
      ⟨[alreadyMsg (r.workflow.steps.getD r.currentStepIndex defaultStep)],
        some r, none⟩ := by
    rw [contents_eq_afterDetails ctx now text (some r) htr hg hl hd]
    unfold afterDetails
    simp only [List.getD_eq_getElem?_getD] at hmem
    simp [hs, ha, hmem]
  exact ⟨by rw [computeAssistant_nextRun, key],
    by rw [computeAssistant_completedRun, key],
    by rw [computeAssistant_content, key]⟩

/-- C3 witness: re-completing the already-completed first step of a
two-step run changes nothing. -/
theorem already_complete_noop_witness :
    (computeAssistant ctx0 "T1" ids0 "complete" (some run2)).nextRun = some run2 ∧
    (computeAssistant ctx0 "T1" ids0 "complete" (some run2)).completedRun = none ∧
    (computeAssistant ctx0 "T1" ids0 "complete" (some run2)).replies.map Message.content =
      [alreadyMsg (run2.workflow.steps.getD run2.currentStepIndex defaultStep)] :=
  already_complete_noop ctx0 "T1" ids0 "complete" run2
    (by decide) (by decide) (by decide) (by decide) (by decide)
    (by decide) (by decide)


/-- C1: a start command resolving to workflow `B` while a run of a
different workflow is active closes that run in the same call: the returned
record has status "cancelled" with the automatic-closure note appended at
the end of its notes, and the returned next run is a fresh run of `B` at
step 0 with empty completed list and empty notes. -/
theorem start_different_workflow_supersedes (ctx : Ctx) (now : String)
    (ids : Nat → String) (text : String) (runA : ActiveRun) (B : Workflow)
    (hg : greetCond (jsToLower (jsTrim text)) = false)
    (hl : listCond (jsToLower (jsTrim text)) = false)
    (hd : detailsCond (jsToLower (jsTrim text)) = false)
    (hs : startCond (jsToLower (jsTrim text)) = true)
    (hfind : findWorkflowFromText ctx (jsTrim text) = some B)
    (hdiff : runA.workflow.id ≠ B.id) :
    (computeAssistant ctx now ids text (some runA)).completedRun = some
      { workflow := runA.workflow, startedAt := runA.startedAt,
        completedAt := now, completedStepIds := runA.completedStepIds,
        notes := runA.notes ++ ["Automatically closed when a new workflow started."],
        status := RunStatus.cancelled } ∧
    (computeAssistant ctx now ids text (some runA)).nextRun =
      some (freshRun B now) ∧
    (freshRun B now).workflow = B ∧ (freshRun B now).currentStepIndex = 0 ∧
    (freshRun B now).completedStepIds = [] ∧ (freshRun B now).notes = [] := by
  have htr : jsTrim text ≠ "" := ne_empty_of_cond startCond (by decide) hs
  have key : assistantContents ctx now text (some runA) =
      ⟨[startMsg B (freshRun B now)], some (freshRun B now),
        some (supersededRecord now runA)⟩ := by
    rw [contents_eq_afterDetails ctx now text (some runA) htr hg hl hd]
    unfold afterDetails
    simp [hs, hfind, hdiff]
  refine ⟨?_, ?_, rfl, rfl, rfl, rfl⟩
  · rw [computeAssistant_completedRun, key]
    unfold supersededRecord autoClosedNote
    rfl
  · rw [computeAssistant_nextRun, key]

/-- C1 witness: starting "Beta Onboarding" while a run of "Alpha Response"
is half done returns the cancelled alpha record and a fresh beta run. -/
theorem start_different_workflow_supersedes_witness :
    (computeAssistant ctx0 "T1" ids0 "start beta onboarding" (some run1)).completedRun = some
      { workflow := run1.workflow, startedAt := run1.startedAt,
        completedAt := "T1", completedStepIds := run1.completedStepIds,
        notes := run1.notes ++ ["Automatically closed when a new workflow started."],
        status := RunStatus.cancelled } ∧
    (computeAssistant ctx0 "T1" ids0 "start beta onboarding" (some run1)).nextRun =
      some (freshRun wfBeta "T1") ∧
    (freshRun wfBeta "T1").workflow = wfBeta ∧
    (freshRun wfBeta "T1").currentStepIndex = 0 ∧
    (freshRun wfBeta "T1").completedStepIds = [] ∧
    (freshRun wfBeta "T1").notes = [] :=
  start_different_workflow_supersedes ctx0 "T1" ids0 "start beta onboarding"
    run1 wfBeta (by decide) (by decide) (by decide) (by decide)
    (by decide) (by decide)

/-- C10: a start command resolving to the workflow that is already active
silently resets the run: no closed record is produced (the discarded
progress is recorded nowhere) and the next run is a fresh run of that same
workflow at step 0 with empty completed list, empty notes and the clock
reading of this call as `startedAt`. -/
theorem start_same_workflow_silent_reset (ctx : Ctx) (now : String)
    (ids : Nat → String) (text : String) (runA : ActiveRun) (B : Workflow)
    (hg : greetCond (jsToLower (jsTrim text)) = false)
    (hl : listCond (jsToLower (jsTrim text)) = false)
    (hd : detailsCond (jsToLower (jsTrim text)) = false)
    (hs : startCond (jsToLower (jsTrim text)) = true)
    (hfind : findWorkflowFromText ctx (jsTrim text) = some B)
    (hsame : runA.workflow.id = B.id) :
    (computeAssistant ctx now ids text (some runA)).completedRun = none ∧
    (computeAssistant ctx now ids text (some runA)).nextRun =
      some (freshRun B now) ∧
    (freshRun B now).currentStepIndex = 0 ∧
    (freshRun B now).completedStepIds = [] ∧ (freshRun B now).notes = [] ∧
    (freshRun B now).startedAt = now := by
  have htr : jsTrim text ≠ "" := ne_empty_of_cond startCond (by decide) hs
  have key : assistantContents ctx now text (some runA) =
      ⟨[startMsg B (freshRun B now)], some (freshRun B now), none⟩ := by
    rw [contents_eq_afterDetails ctx now text (some runA) htr hg hl hd]
    unfold afterDetails
    simp [hs, hfind, hsame]
  refine ⟨?_, ?_, rfl, rfl, rfl, rfl⟩
  · rw [computeAssistant_completedRun, key]
  · rw [computeAssistant_nextRun, key]

/-- C10 witness: "start alpha response" while a half-done alpha run is
active resets it with no record of the discarded progress. -/
theorem start_same_workflow_silent_reset_witness :
    (computeAssistant ctx0 "T1" ids0 "start alpha response" (some run1)).completedRun = none ∧
    (computeAssistant ctx0 "T1" ids0 "start alpha response" (some run1)).nextRun =
      some (freshRun wfAlpha "T1") ∧
    (freshRun wfAlpha "T1").currentStepIndex = 0 ∧
    (freshRun wfAlpha "T1").completedStepIds = [] ∧
    (freshRun wfAlpha "T1").notes = [] ∧
    (freshRun wfAlpha "T1").startedAt = "T1" :=
  start_same_workflow_silent_reset ctx0 "T1" ids0 "start alpha response"
    run1 wfAlpha (by decide) (by decide) (by decide) (by decide)
    (by decide) (by decide)

/-- C4 counterexample: on "show workflow cancel" with an active run, the
details category matches, no workflow resolves, the text mentions
"workflow" — the not-found hint is emitted, yet the interpreter does NOT
return: control falls through to the cancel branch, which closes the run.
So the state is changed and the handler of a later category runs, contrary to
the claim. -/
theorem details_not_found_counterexample :
    detailsCond (jsToLower (jsTrim "show workflow cancel")) = true ∧
    findWorkflowFromText ctx0 (jsTrim "show workflow cancel") = none ∧
    jsIncludes (jsToLower (jsTrim "show workflow cancel")) "workflow" = true ∧
    (computeAssistant ctx0 "T1" ids0 "show workflow cancel" (some run1)).nextRun ≠
      some run1 ∧
    (computeAssistant ctx0 "T1" ids0 "show workflow cancel" (some run1)).completedRun ≠
      none ∧
    ((computeAssistant ctx0 "T1" ids0 "show workflow cancel" (some run1)).replies.map
      Message.content).length = 2 := by
  refine ⟨by decide, by decide, by decide, ?_, ?_, ?_⟩
  · rw [computeAssistant_nextRun]
    decide
  · rw [computeAssistant_completedRun]
    decide
  · rw [computeAssistant_content]
    decide

/-- C4 (amended): when the details category matches, no workflow resolves
and the text mentions "workflow", the interpreter emits the not-found hint
as its first reply but does not return: evaluation continues with the later
categories on the unchanged state, whose handler determines the final state;
in particular, when no later category matches either, the fallback reply is
appended after the hint and the state is unchanged. -/
theorem details_not_found_falls_through (ctx : Ctx) (now : String)
    (ids : Nat → String) (text : String) (run : Option ActiveRun)
    (hg : greetCond (jsToLower (jsTrim text)) = false)
    (hl : listCond (jsToLower (jsTrim text)) = false)
    (hd : detailsCond (jsToLower (jsTrim text)) = true)
    (hfind : findWorkflowFromText ctx (jsTrim text) = none)
    (hwf : jsIncludes (jsToLower (jsTrim text)) "workflow" = true) :
    (computeAssistant ctx now ids text run).replies.map Message.content =
      notFoundMsg ::
        (afterDetails ctx now (jsTrim text) (jsToLower (jsTrim text)) run).contents ∧
    (computeAssistant ctx now ids text run).nextRun =
      (afterDetails ctx now (jsTrim text) (jsToLower (jsTrim text)) run).nextRun ∧
    (computeAssistant ctx now ids text run).completedRun =
      (afterDetails ctx now (jsTrim text) (jsToLower (jsTrim text)) run).completedRun ∧
    (startCond (jsToLower (jsTrim text)) = false →
      advanceCond (jsToLower (jsTrim text)) = false →
      statusCond (jsToLower (jsTrim text)) = false →
      noteCond (jsToLower (jsTrim text)) = false →
      cancelCond (jsToLower (jsTrim text)) = false →
      exportCond (jsToLower (jsTrim text)) = false →
      goBackCond (jsToLower (jsTrim text)) = false →
      (computeAssistant ctx now ids text run).replies.map Message.content =
        [notFoundMsg, fallbackMsg (jsTrim text)] ∧
      (computeAssistant ctx now ids text run).nextRun = run ∧
      (computeAssistant ctx now ids text run).completedRun = none) := by
  have htr : jsTrim text ≠ "" := ne_empty_of_cond detailsCond (by decide) hd
  have key : assistantContents ctx now text run =
      ⟨notFoundMsg ::
          (afterDetails ctx now (jsTrim text) (jsToLower (jsTrim text)) run).contents,
        (afterDetails ctx now (jsTrim text) (jsToLower (jsTrim text)) run).nextRun,
        (afterDetails ctx now (jsTrim text) (jsToLower (jsTrim text)) run).completedRun⟩ := by
    unfold assistantContents
    simp [htr, hg, hl, hd, hfind, hwf]
  refine ⟨by rw [computeAssistant_content, key],
    by rw [computeAssistant_nextRun, key],
    by rw [computeAssistant_completedRun, key],
    fun hs ha hst hn hc he hgb => ?_⟩
  have key2 : afterDetails ctx now (jsTrim text) (jsToLower (jsTrim text)) run =
      ⟨[fallbackMsg (jsTrim text)], run, none⟩ := by
    unfold afterDetails
    simp [hs, ha, hst, hn, hc, he, hgb]
  refine ⟨?_, ?_, ?_⟩
  · rw [computeAssistant_content, key, key2]
  · rw [computeAssistant_nextRun, key, key2]
  · rw [computeAssistant_completedRun, key, key2]

/-- C4 witness: "show me the workflow thingy" with no active run yields the
hint followed by the fallback reply, with no state change. -/
theorem details_not_found_falls_through_witness :
    (computeAssistant ctx0 "T1" ids0 "show me the workflow thingy" none).replies.map
        Message.content = [notFoundMsg, fallbackMsg (jsTrim "show me the workflow thingy")] ∧
    (computeAssistant ctx0 "T1" ids0 "show me the workflow thingy" none).nextRun = none ∧
    (computeAssistant ctx0 "T1" ids0 "show me the workflow thingy" none).completedRun = none :=
  (details_not_found_falls_through ctx0 "T1" ids0 "show me the workflow thingy" none
    (by decide) (by decide) (by decide) (by decide) (by decide)).2.2.2
    (by decide) (by decide) (by decide) (by decide) (by decide) (by decide) (by decide)

/-- C8 counterexample: with a zero-step workflow the formatter renders the
percentage as "NaN", not "0": `formatRunSummary` interpolates
`Math.round((0 / 0) * 100)` with no zero-total guard (the guard exists only
in the `activeProgress` memo of the page, outside the formatters). -/
theorem percent_zero_total_counterexample :
    jsPercent 0 0 = "NaN" ∧ jsPercent 0 0 ≠ "0" ∧
    jsIncludes (formatRunSummary ctx0 recEmpty) "(NaN%)" = true ∧
    jsIncludes (formatRunSummary ctx0 recEmpty) "(0%)" = false := by
  decide

/-- C8 (amended): for a positive total, every rendered progress percentage
equals the nearest-integer (half-up) rounding of completed/total × 100 —
`jsPercent` is the percentage computation shared by `buildStatusMessage`
and `formatRunSummary`, and its value agrees with the mathematical
`round`; for total = 0 the formatters render "NaN"/"Infinity" rather
than 0. -/
theorem percent_rounding (c t : Nat) (ht : 0 < t) :
    jsPercent c t = toString (natRoundDiv (100 * c) t) ∧
    (natRoundDiv (100 * c) t : ℤ) = round ((c : ℚ) / (t : ℚ) * 100) := by
  have ht0 : t ≠ 0 := Nat.pos_iff_ne_zero.mp ht
  constructor
  · unfold jsPercent
    rw [if_neg ht0]
  · unfold natRoundDiv
    rw [round_eq]
    have htq : (t : ℚ) ≠ 0 := Nat.cast_ne_zero.mpr ht0
    have h1 : (c : ℚ) / (t : ℚ) * 100 + 1 / 2 =
        ((2 * (100 * c) + t : ℕ) : ℚ) / ((2 * t : ℕ) : ℚ) := by
      push_cast
      field_simp
      ring
    rw [h1, Rat.floor_natCast_div_natCast]
    exact Int.ofNat_tdiv _ _

/-- C8 witness: one third of the steps done renders as 33 percent, the
half-up rounding of 100/3. -/
theorem percent_rounding_witness :
    jsPercent 1 3 = toString (natRoundDiv (100 * 1) 3) ∧
    (natRoundDiv (100 * 1) 3 : ℤ) = round ((1 : ℚ) / (3 : ℚ) * 100) :=
  percent_rounding 1 3 (by decide)

/-- C9 counterexample: two calls with identical text and run state do not
produce identical outputs — the reply lists differ when the ambient id
generator draws differently (as `crypto.randomUUID` does on every call),
and the closed record differs when the clock reading differs. -/
theorem interpreter_not_identical_across_calls :
    (computeAssistant ctx0 "T1" (fun _ => "u1") "hi" none).replies ≠
      (computeAssistant ctx0 "T1" (fun _ => "u2") "hi" none).replies ∧
    (computeAssistant ctx0 "T1" ids0 "cancel" (some run1)).completedRun ≠
      (computeAssistant ctx0 "T2" ids0 "cancel" (some run1)).completedRun := by
  decide

/-- C9 (amended): the interpreter is deterministic once its ambient effects
are fixed as inputs: the reply contents, reply roles, next run and closed
record depend only on (text, run, clock reading) and are independent of the
id source; only the `Message.id` fields vary with it. -/
theorem interpreter_deterministic_up_to_ids (ctx : Ctx) (now : String)
    (ids1 ids2 : Nat → String) (input : String) (run : Option ActiveRun) :
    (computeAssistant ctx now ids1 input run).replies.map Message.content =
      (computeAssistant ctx now ids2 input run).replies.map Message.content ∧
    (computeAssistant ctx now ids1 input run).replies.map Message.role =
      (computeAssistant ctx now ids2 input run).replies.map Message.role ∧
    (computeAssistant ctx now ids1 input run).nextRun =
      (computeAssistant ctx now ids2 input run).nextRun ∧
    (computeAssistant ctx now ids1 input run).completedRun =
      (computeAssistant ctx now ids2 input run).completedRun := by
  refine ⟨?_, ?_, rfl, rfl⟩
  · rw [computeAssistant_content, computeAssistant_content]
  · exact (enumFrom_map_role ids1 0 _).trans (enumFrom_map_role ids2 0 _).symm

theorem afterDetails_advance_fresh (ctx : Ctx) (now trimmed lower : String)
    (r : ActiveRun)
    (hs : startCond lower = false) (ha : advanceCond lower = true)
    (hnm : (r.workflow.steps.getD r.currentStepIndex defaultStep).id ∉
      r.completedStepIds) :
    afterDetails ctx now trimmed lower (some r) =
      if r.workflow.steps.length - 1 ≤ r.currentStepIndex then
        ⟨[completeAllMsg ctx (markCompleted r) (completedRecord now (markCompleted r))],
          none, some (completedRecord now (markCompleted r))⟩
      else
        ⟨[advMsg (r.workflow.steps.getD r.currentStepIndex defaultStep)
            (advanceRun (markCompleted r))],
          some (advanceRun (markCompleted r)), none⟩ := by
  unfold afterDetails
  simp only [List.getD_eq_getElem?_getD] at hnm
  simp [hs, ha, hnm, markCompleted, advanceRun]

theorem markCompleted_runAfter (w : Workflow) (t0 : String) (k : Nat)
    (hk : k < w.steps.length) :
    markCompleted (runAfter w t0 k) =
      { workflow := w, currentStepIndex := k,
        completedStepIds := (w.steps.take (k + 1)).map (fun s => s.id),
        startedAt := t0, notes := [] } := by
  unfold markCompleted runAfter
  simp only
  congr 1
  rw [List.getD_eq_getElem _ _ hk, List.take_succ, List.getElem?_eq_getElem hk,
    List.map_append]
  rfl

theorem runAfter_step_not_completed (w : Workflow) (t0 : String) (k : Nat)
    (hk : k < w.steps.length)
    (hnd : (w.steps.map (fun s => s.id)).Nodup) :
    ((runAfter w t0 k).workflow.steps.getD (runAfter w t0 k).currentStepIndex
      defaultStep).id ∉ (runAfter w t0 k).completedStepIds := by
  show (w.steps.getD k defaultStep).id ∉ (w.steps.take k).map (fun s => s.id)
  rw [List.getD_eq_getElem _ _ hk]
  intro hmem
  have hsplit : w.steps.map (fun s => s.id) =
      (w.steps.take k).map (fun s => s.id) ++
        (w.steps.drop k).map (fun s => s.id) := by
    rw [← List.map_append, List.take_append_drop]
  rw [hsplit] at hnd
  rcases List.nodup_append.mp hnd with ⟨-, -, hdisj⟩
  apply hdisj hmem
  have hdl : 0 < (w.steps.drop k).length := by
    rw [List.length_drop]
    omega
  have hget : (w.steps.drop k)[0] = w.steps[k] := by
    rw [List.getElem_drop]
    simp
  exact List.mem_map.mpr ⟨w.steps[k], hget ▸ List.getElem_mem hdl, rfl⟩

/-- C2: starting from a fresh run of a workflow with pairwise distinct step
ids and completing the steps in order (no go-back or restart in between),
each of the first N−1 advance commands moves the index up by one and
produces no closed record, and the N-th command alone closes the run with
status "completed", a completed list containing all N step ids, and no next
run.  The state reached after `k` completions is `runAfter w t0 k`, and
`runAfter w t0 0` is exactly the fresh run the start branch creates. -/
theorem complete_in_order_closes_on_last (ctx : Ctx) (now : String)
    (ids : Nat → String) (text t0 : String) (w : Workflow) (k : Nat)
    (hg : greetCond (jsToLower (jsTrim text)) = false)
    (hl : listCond (jsToLower (jsTrim text)) = false)
    (hd : detailsCond (jsToLower (jsTrim text)) = false)
    (hs : startCond (jsToLower (jsTrim text)) = false)
    (ha : advanceCond (jsToLower (jsTrim text)) = true)
    (hnd : (w.steps.map (fun s => s.id)).Nodup)
    (hk : k < w.steps.length) :
    runAfter w t0 0 = freshRun w t0 ∧
    (k + 1 < w.steps.length →
      (computeAssistant ctx now ids text (some (runAfter w t0 k))).nextRun =
        some (runAfter w t0 (k + 1)) ∧
      (computeAssistant ctx now ids text (some (runAfter w t0 k))).completedRun =
        none) ∧
    (k + 1 = w.steps.length →
      (computeAssistant ctx now ids text (some (runAfter w t0 k))).nextRun = none ∧
      (computeAssistant ctx now ids text (some (runAfter w t0 k))).completedRun =
        some { workflow := w, startedAt := t0, completedAt := now,
               completedStepIds := w.steps.map (fun s => s.id), notes := [],
               status := RunStatus.completed } ∧
      (w.steps.map (fun s => s.id)).length = w.steps.length) := by
  have htr : jsTrim text ≠ "" := ne_empty_of_cond advanceCond (by decide) ha
  have key : assistantContents ctx now text (some (runAfter w t0 k)) =
      afterDetails ctx now (jsTrim text) (jsToLower (jsTrim text))
        (some (runAfter w t0 k)) :=
    contents_eq_afterDetails ctx now text (some (runAfter w t0 k)) htr hg hl hd
  have hadv := afterDetails_advance_fresh ctx now (jsTrim text)
    (jsToLower (jsTrim text)) (runAfter w t0 k) hs ha
    (runAfter_step_not_completed w t0 k hk hnd)
  refine ⟨by unfold runAfter freshRun; simp, fun hlt => ?_, fun heq => ?_⟩
  · have hcond : ¬ ((runAfter w t0 k).workflow.steps.length - 1 ≤
        (runAfter w t0 k).currentStepIndex) := by
      show ¬ (w.steps.length - 1 ≤ k)
      omega
    rw [if_neg hcond] at hadv
    have hnext : advanceRun (markCompleted (runAfter w t0 k)) =
        runAfter w t0 (k + 1) := by
      rw [markCompleted_runAfter w t0 k hk]
      unfold advanceRun runAfter
      simp
    constructor
    · rw [computeAssistant_nextRun, key, hadv, hnext]
    · rw [computeAssistant_completedRun, key, hadv]
  · have hcond : (runAfter w t0 k).workflow.steps.length - 1 ≤
        (runAfter w t0 k).currentStepIndex := by
      show w.steps.length - 1 ≤ k
      omega
    rw [if_pos hcond] at hadv
    have hrec : completedRecord now (markCompleted (runAfter w t0 k)) =
        { workflow := w, startedAt := t0, completedAt := now,
          completedStepIds := w.steps.map (fun s => s.id), notes := [],
          status := RunStatus.completed } := by
      rw [markCompleted_runAfter w t0 k hk]
      unfold completedRecord
      simp only
      congr 1
      rw [heq, List.take_length]
    refine ⟨?_, ?_, by simp⟩
    · rw [computeAssistant_nextRun, key, hadv]
    · rw [computeAssistant_completedRun, key, hadv, hrec]

/-- C2 witness: on the two-step workflow `wfAlpha`, the second "complete"
from the state with step 1 done closes the run with both ids recorded. -/
theorem complete_in_order_closes_on_last_witness :
    (runAfter wfAlpha "T0" 0 = freshRun wfAlpha "T0" ∧
      (1 + 1 < wfAlpha.steps.length →
        (computeAssistant ctx0 "T1" ids0 "complete" (some (runAfter wfAlpha "T0" 1))).nextRun =
          some (runAfter wfAlpha "T0" (1 + 1)) ∧
        (computeAssistant ctx0 "T1" ids0 "complete" (some (runAfter wfAlpha "T0" 1))).completedRun =
          none) ∧
      (1 + 1 = wfAlpha.steps.length →
        (computeAssistant ctx0 "T1" ids0 "complete" (some (runAfter wfAlpha "T0" 1))).nextRun =
          none ∧
        (computeAssistant ctx0 "T1" ids0 "complete" (some (runAfter wfAlpha "T0" 1))).completedRun =
          some { workflow := wfAlpha, startedAt := "T0", completedAt := "T1",
                 completedStepIds := wfAlpha.steps.map (fun s => s.id), notes := [],
                 status := RunStatus.completed } ∧
        (wfAlpha.steps.map (fun s => s.id)).length = wfAlpha.steps.length)) :=
  complete_in_order_closes_on_last ctx0 "T1" ids0 "complete" "T0" wfAlpha 1
    (by decide) (by decide) (by decide) (by decide) (by decide)
    (by decide) (by decide)

theorem findWorkflowFromText_mem (ctx : Ctx) (t : String) (w : Workflow)
    (hq : ∀ s w0, ctx.getWorkflowByQuery s = some w0 → w0 ∈ ctx.WORKFLOWS)
    (h : findWorkflowFromText ctx t = some w) : w ∈ ctx.WORKFLOWS := by
  unfold findWorkflowFromText at h
  cases hfind : ctx.WORKFLOWS.find?
      (fun wf => jsIncludes (jsToLower t) (jsToLower wf.name)) with
  | some x =>
    rw [hfind] at h
    cases h
    exact List.mem_of_find?_eq_some hfind
  | none =>
    rw [hfind] at h
    exact hq _ _ h

theorem afterDetails_nextRun_bound (ctx : Ctx) (now trimmed lower : String)
    (run : Option ActiveRun)
    (hcat : ∀ w ∈ ctx.WORKFLOWS, w.steps ≠ [])
    (hq : ∀ s w0, ctx.getWorkflowByQuery s = some w0 → w0 ∈ ctx.WORKFLOWS)
    (hrun : ∀ r, run = some r → r.currentStepIndex < r.workflow.steps.length) :
    ∀ r', (afterDetails ctx now trimmed lower run).nextRun = some r' →
      r'.currentStepIndex < r'.workflow.steps.length := by
  intro r' h
  unfold afterDetails at h
  simp only [markCompleted, advanceRun, freshRun] at h
  repeat' split at h
  all_goals simp_all
  all_goals
    first
      | (subst h; simp; omega)
      | (subst h
         simp
         exact List.length_pos.mpr
           (hcat _ (findWorkflowFromText_mem ctx trimmed _ hq (by assumption))))

/-- C7: the interpreter preserves the run-index invariant: when every
catalog workflow has a non-empty step list, the fuzzy lookup only returns
catalog workflows, and the incoming run (if any) has its index inside its
step list, then the returned next run (if any) also has its index inside
its step list. -/
theorem interp_preserves_index_invariant (ctx : Ctx) (now : String)
    (ids : Nat → String) (input : String) (run : Option ActiveRun)
    (hcat : ∀ w ∈ ctx.WORKFLOWS, w.steps ≠ [])
    (hq : ∀ s w0, ctx.getWorkflowByQuery s = some w0 → w0 ∈ ctx.WORKFLOWS)
    (hrun : ∀ r, run = some r → r.currentStepIndex < r.workflow.steps.length) :
    ∀ r', (computeAssistant ctx now ids input run).nextRun = some r' →
      r'.currentStepIndex < r'.workflow.steps.length := by
  intro r' h
  rw [computeAssistant_nextRun] at h
  by_cases h0 : jsTrim input = ""
  · simp [assistantContents, h0] at h
    exact hrun _ h
  · by_cases h1 : greetCond (jsToLower (jsTrim input)) = true
    · simp [assistantContents, h0, h1] at h
      exact hrun _ h
    · by_cases h2 : listCond (jsToLower (jsTrim input)) = true
      · simp [assistantContents, h0, h1, h2] at h
        exact hrun _ h
      · by_cases h3 : detailsCond (jsToLower (jsTrim input)) = true
        · cases hfind : findWorkflowFromText ctx (jsTrim input) with
          | some t =>
            simp [assistantContents, h0, h1, h2, h3, hfind] at h
            exact hrun _ h
          | none =>
            simp [assistantContents, h0, h1, h2, h3, hfind] at h
            exact afterDetails_nextRun_bound ctx now (jsTrim input)
              (jsToLower (jsTrim input)) run hcat hq hrun r' h
        · simp [assistantContents, h0, h1, h2, h3] at h
          exact afterDetails_nextRun_bound ctx now (jsTrim input)
            (jsToLower (jsTrim input)) run hcat hq hrun r' h

/-- C7 witness: starting the one-step workflow `wfBeta` from a valid run
state yields a next run whose index is inside its step list. -/
theorem interp_preserves_index_invariant_witness :
    (freshRun wfBeta "T1").currentStepIndex <
      (freshRun wfBeta "T1").workflow.steps.length :=
  interp_preserves_index_invariant ctx0 "T1" ids0 "start beta onboarding"
    (some run0) (by decide) (fun s w0 h => by simp [ctx0] at h)
    (fun r hr => by cases hr; decide)
    (freshRun wfBeta "T1") (by decide)
